import Mathlib

/-!
Verification of the Motif & Domain Annotation Engine (src/app.py) against its
natural-language specification.

The Python source is shallowly embedded below:
* Python strings become `List Char` (wrapped in `String` at record boundaries);
* the `re` regular-expression calls (`finditer`, `findall`, `search`) are
  embedded by a small backtracking engine over the restricted regex fragment
  actually used by the source (single-character classes with greedy or lazy
  counted repetition, top-level alternation, contiguous capture groups);
* network calls (`requests.post` / `requests.get`) become environment records
  whose fields give each call's outcome; a raised `RequestException` (or any
  exception) is the `Net.exn` constructor;
* `time.sleep(5)` and the bounded polling loops are embedded by structural
  recursion on the remaining attempt count, with the slept time units and the
  number of poll iterations returned alongside the list of matches.
-/

/-- Python `str.strip()` on a character list: drop whitespace from both ends. -/
def pyStrip (cs : List Char) : List Char :=
  ((cs.dropWhile Char.isWhitespace).reverse.dropWhile Char.isWhitespace).reverse

/-- Python `str.strip()` at the `String` level. -/
def pyStripS (s : String) : String :=
  String.mk (pyStrip s.data)

/-- Digit-string to number, as Python `int()` on a string of decimal digits. -/
def parseNatDigits (cs : List Char) : Nat :=
  cs.foldl (fun acc c => acc * 10 + (c.toNat - '0'.toNat)) 0

/-! ## Regex engine

The source uses `re` with patterns built from single-character classes,
counted repetition (greedy or lazy), and in one place a two-branch top-level
alternation.  `matchStep` is a backtracking matcher over this fragment: at
each element it tries the repetition counts in the engine's preference order
(greedy: largest first; lazy: smallest first) and recurses on the remaining
elements, exactly the order in which Python's backtracking engine explores
candidates for such patterns. -/

/-- A single-character regex class. -/
inductive CClass where
  | lit (c : Char)
  | inSet (s : String)
  | notInSet (s : String)
  | anyNoNL
  | digit
  | wordc
  | space
deriving DecidableEq, Repr

/-- Character comparison, optionally case-insensitive (re.IGNORECASE). -/
def ceq (ci : Bool) (a b : Char) : Bool :=
  if ci then a.toUpper == b.toUpper else a == b

/-- Whether a character matches a class (Python `re` semantics: `.` excludes
newline, `\w` is alphanumeric or underscore, `\s` is ASCII whitespace). -/
def cmatch (ci : Bool) : CClass → Char → Bool
  | .lit d, c => ceq ci c d
  | .inSet s, c => s.data.any (ceq ci c)
  | .notInSet s, c => !(s.data.any (ceq ci c))
  | .anyNoNL, c => c != '\n'
  | .digit, c => c.isDigit
  | .wordc, c => c.isAlphanum || c == '_'
  | .space, c => c == ' ' || c == '\t' || c == '\n' || c == '\r' || c == '\x0b' || c == '\x0c'

/-- One quantified element of a pattern: a class repeated between `lo` and
`hi` times (`hi = none` is an unbounded `+`/`*`), `lazy` giving the
quantifier's preference order, and `grp` tagging the capture group the
element belongs to (groups are contiguous in all the source's patterns). -/
structure Elem where
  cls : CClass
  lo : Nat
  hi : Option Nat
  lazy : Bool
  grp : Option Nat
deriving DecidableEq, Repr

/-- Element constructor shorthand. -/
def el (cls : CClass) (lo : Nat) (hi : Option Nat) (lazy : Bool) (grp : Option Nat) : Elem :=
  ⟨cls, lo, hi, lazy, grp⟩

/-- A class matched exactly once, not captured. -/
def one (cls : CClass) : Elem := el cls 1 (some 1) false none

/-- A class repeated a bounded number of times, greedy, not captured. -/
def rep (cls : CClass) (lo hi : Nat) : Elem := el cls lo (some hi) false none

/-- Length of the longest prefix whose characters all match the class. -/
def maxRun (ci : Bool) (cls : CClass) : List Char → Nat
  | [] => 0
  | c :: t => if cmatch ci cls c then maxRun ci cls t + 1 else 0

/-- Candidate repetition counts in greedy order: `cap, cap-1, ..., lo`. -/
def candsDesc (lo cap : Nat) : List Nat :=
  (List.range (cap + 1 - lo)).map (fun i => cap - i)

/-- Candidate repetition counts in lazy order: `lo, lo+1, ..., cap`. -/
def candsAsc (lo cap : Nat) : List Nat :=
  (List.range (cap + 1 - lo)).map (fun i => lo + i)

/-- Backtracking matcher: given fuel (any bound above the element count),
try to match the whole element list at the head of `cs`, returning the
per-element repetition counts of the first (in backtracking order) full
match. -/
def matchStep (ci : Bool) : Nat → List Elem → List Char → Option (List Nat)
  | 0, _, _ => none
  | _ + 1, [], _ => some []
  | fuel + 1, e :: es, cs =>
    let run := maxRun ci e.cls cs
    let cap := match e.hi with
      | none => run
      | some h => min h run
    let cands := if e.lazy then candsAsc e.lo cap else candsDesc e.lo cap
    List.findSome? (fun n => (matchStep ci fuel es (cs.drop n)).map (fun rest => n :: rest)) cands

/-- Match the element list at the head of `cs`. -/
def matchElems (ci : Bool) (es : List Elem) (cs : List Char) : Option (List Nat) :=
  matchStep ci (es.length + 1) es cs

/-- Try each alternative pattern in order at the head of `cs`, returning the
index of the first branch that matches together with its counts. -/
def tryAlts (ci : Bool) (alts : List (List Elem)) (cs : List Char) : Option (Nat × List Nat) :=
  List.findSome? (fun p => (matchElems ci p.2 cs).map (fun cnts => (p.1, cnts))) alts.enum

/-- Python `re.finditer` / `re.findall`: scan left to right, report each
leftmost match as `(offset, branch index, counts)`, and resume the search
after the end of the previous match (one step forward for an empty match). -/
def finditerF (ci : Bool) (alts : List (List Elem)) : Nat → List Char → Nat → List (Nat × Nat × List Nat)
  | 0, _, _ => []
  | fuel + 1, cs, off =>
    match tryAlts ci alts cs with
    | some (i, cnts) =>
      match cs with
      | [] => [(off, i, cnts)]
      | _ :: _ =>
        let step := max cnts.sum 1
        (off, i, cnts) :: finditerF ci alts fuel (cs.drop step) (off + step)
    | none =>
      match cs with
      | [] => []
      | _ :: t => finditerF ci alts fuel t (off + 1)

/-- All non-overlapping matches of the alternation in `cs`. -/
def finditer (ci : Bool) (alts : List Elem) (cs : List Char) : List (Nat × Nat × List Nat) :=
  finditerF ci [alts] (cs.length + 1) cs 0

/-- All non-overlapping matches of a multi-branch alternation in `cs`. -/
def finditerAlts (ci : Bool) (alts : List (List Elem)) (cs : List Char) : List (Nat × Nat × List Nat) :=
  finditerF ci alts (cs.length + 1) cs 0

/-- Python `re.search`: the leftmost match only. -/
def research (ci : Bool) (alts : List (List Elem)) : List Char → Nat → Option (Nat × Nat × List Nat)
  | [], off => (tryAlts ci alts []).map (fun p => (off, p))
  | c :: t, off =>
    match tryAlts ci alts (c :: t) with
    | some (i, cnts) => some (off, i, cnts)
    | none => research ci alts t (off + 1)

/-- Number of characters consumed before the first element of group `g`. -/
def grpOff : List Elem → List Nat → Nat → Nat
  | e :: es, n :: ns, g => if e.grp = some g then 0 else n + grpOff es ns g
  | _, _, _ => 0

/-- Number of characters consumed by the elements of group `g`. -/
def grpLen : List Elem → List Nat → Nat → Nat
  | e :: es, n :: ns, g => (if e.grp = some g then n else 0) + grpLen es ns g
  | _, _, _ => 0

/-- The text captured by group `g` of a match at `off` with counts `counts`. -/
def groupStr (elems : List Elem) (counts : List Nat) (cs : List Char) (off g : Nat) : List Char :=
  (cs.drop (off + grpOff elems counts g)).take (grpLen elems counts g)

/-! ## Match model

Each producer in `src/app.py` builds Python dicts of a fixed per-source
shape; the three shapes are embedded as three record types.  The Python key
`end` is a Lean keyword and is embedded as the field `stop`.  The `bitscore`
floats that appear in the source are the exact decimal constants `45.0` and
`40.0`; they are embedded as rationals since no floating-point arithmetic is
performed on them. -/

/-- A 1-based inclusive `{start, end}` span with concrete integer bounds. -/
structure Span where
  start : Nat
  stop : Nat
deriving DecidableEq, Repr

/-- A `{start, end}` span as parsed from the InterPro JSON payload, where
either `loc.get('start')` or `loc.get('end')` may be absent (`None`). -/
structure IPSpan where
  start : Option Int
  stop : Option Int
deriving DecidableEq, Repr

/-- A match dict built by `search_prosite_via_uniprot`. -/
structure PrositeMatch where
  id : String
  name : String
  description : String
  pattern : String
  function : String
  positions : List Span
deriving DecidableEq, Repr

/-- A match dict built by `parse_interpro_results` (fields obtained with
`dict.get` and therefore possibly `None` are `Option`s). -/
structure PfamMatch where
  id : Option String
  name : Option String
  description : Option String
  function : String
  positions : List IPSpan
  evalue : String
deriving DecidableEq, Repr

/-- A match dict built by `parse_cdd_html_results`. -/
structure CddMatch where
  id : String
  name : String
  description : String
  function : String
  superfamily : String
  positions : List Span
  bitscore : ℚ
deriving DecidableEq, Repr

/-! ## PROSITE producer (`search_prosite_via_uniprot`, src/app.py:38-108)

The five hardcoded library entries with their compiled `regex` fields.  Each
Python regex string is translated element by element; all five are scanned
with `re.IGNORECASE`. -/

/-- One entry of the hardcoded pattern table in `search_prosite_via_uniprot`,
with the `regex` field already compiled to engine elements. -/
structure ProsPattern where
  id : String
  name : String
  description : String
  pattern : String
  function : String
  regex : List Elem
deriving DecidableEq, Repr

/-- PS00008, regex `D.[DNS][^ILVFYW][DENSTG][DNQGHRK][^GP][LIVMC][DENQSTAGC].{2}[DE][LIVMFYW]`. -/
def ps00008 : ProsPattern :=
  { id := "PS00008"
    name := "EF_HAND_1"
    description := "EF-hand calcium-binding domain signature"
    pattern := "D-x-[DNS]-\x7bILVFYW\x7d-[DENSTG]-[DNQGHRK]-\x7bGP\x7d-[LIVMC]-[DENQSTAGC]-x(2)-[DE]-[LIVMFYW]"
    function := "Calcium binding domain found in many calcium-binding proteins including calmodulin, troponin C, and parvalbumin"
    regex := [one (.lit 'D'), one .anyNoNL, one (.inSet "DNS"), one (.notInSet "ILVFYW"),
              one (.inSet "DENSTG"), one (.inSet "DNQGHRK"), one (.notInSet "GP"),
              one (.inSet "LIVMC"), one (.inSet "DENQSTAGC"), rep .anyNoNL 2 2,
              one (.inSet "DE"), one (.inSet "LIVMFYW")] }

/-- PS00142, regex `C.{2,4}C.{3}[LIVMFYWC].{8}H.{3,5}H`. -/
def ps00142 : ProsPattern :=
  { id := "PS00142"
    name := "ZINC_FINGER_C2H2_1"
    description := "Zinc finger C2H2 type domain signature"
    pattern := "C-x(2,4)-C-x(3)-[LIVMFYWC]-x(8)-H-x(3,5)-H"
    function := "DNA-binding domain that coordinates zinc ions for sequence-specific DNA recognition"
    regex := [one (.lit 'C'), rep .anyNoNL 2 4, one (.lit 'C'), rep .anyNoNL 3 3,
              one (.inSet "LIVMFYWC"), rep .anyNoNL 8 8, one (.lit 'H'),
              rep .anyNoNL 3 5, one (.lit 'H')] }

/-- PS00017, regex `[AG].{4}GK[ST]`. -/
def ps00017 : ProsPattern :=
  { id := "PS00017"
    name := "ATP_GTP_A"
    description := "ATP/GTP-binding site motif A (P-loop)"
    pattern := "[AG]-x(4)-G-K-[ST]"
    function := "Nucleotide binding site found in many kinases and GTPases"
    regex := [one (.inSet "AG"), rep .anyNoNL 4 4, one (.lit 'G'), one (.lit 'K'),
              one (.inSet "ST")] }

/-- PS00006, regex `[ST].{2}[DE]`. -/
def ps00006 : ProsPattern :=
  { id := "PS00006"
    name := "CASEIN_KINASE_2"
    description := "Casein kinase II phosphorylation site"
    pattern := "[ST]-x(2)-[DE]"
    function := "Phosphorylation site for casein kinase II"
    regex := [one (.inSet "ST"), rep .anyNoNL 2 2, one (.inSet "DE")] }

/-- PS00005, regex `[ST].[RK]`. -/
def ps00005 : ProsPattern :=
  { id := "PS00005"
    name := "PKC_PHOSPHO_SITE"
    description := "Protein kinase C phosphorylation site"
    pattern := "[ST]-x-[RK]"
    function := "Phosphorylation site for protein kinase C"
    regex := [one (.inSet "ST"), one .anyNoNL, one (.inSet "RK")] }

/-- The `patterns` table of `search_prosite_via_uniprot`, in source order. -/
def prositePatterns : List ProsPattern := [ps00008, ps00142, ps00017, ps00006, ps00005]

/-- The `prosite_matches` list before the final `[:5]`: for each pattern in
table order, every `re.finditer` hit becomes one match dict with
`start = match.start() + 1` and `end = match.end()`. -/
def search_prosite_all (sequence : String) : List PrositeMatch :=
  (prositePatterns.map (fun p =>
    (finditer true p.regex sequence.data).map (fun h =>
      { id := p.id, name := p.name, description := p.description,
        pattern := p.pattern, function := p.function,
        positions := [⟨h.1 + 1, h.1 + h.2.2.sum⟩] }))).flatten

/-- `search_prosite_via_uniprot` (src/app.py:38-108).  The body is pure, so
its `except` clause is unreachable; it returns the first five matches. -/
def search_prosite_via_uniprot (sequence : String) : List PrositeMatch :=
  (search_prosite_all sequence).take 5

/-! ## InterPro result parser (`parse_interpro_results`, src/app.py:176-206)

The JSON payload is navigated with `dict.get`, so absent keys become
`Option`s.  A match entry whose navigation raises (a payload that does not
have the expected shape at that match) is embedded as the `malformed`
constructor: processing it raises, the exception is caught by the
function-level `except`, and the matches accumulated so far are returned. -/

/-- One entry of a match's `locations` list. -/
structure IPLocation where
  start : Option Int
  stop : Option Int
deriving DecidableEq, Repr

/-- The fields read from `match['signature']` (each via `dict.get`, possibly
absent); `library` is `signature.get('signatureLibraryRelease', {}).get('library')`. -/
structure IPSignature where
  library : Option String
  accession : Option String
  name : Option String
  description : Option String
  abstract : Option String
deriving DecidableEq, Repr

/-- A well-shaped entry of a result's `matches` list.  `evalue` is the
formatted text of `match.get('evalue', ...)` when the key is present. -/
structure IPMatch where
  signature : IPSignature
  locations : List IPLocation
  evalue : Option String
deriving DecidableEq, Repr

/-- A raw entry of a result's `matches` list: either well shaped, or one
whose processing raises (`malformed`). -/
inductive IPMatchEntry where
  | good (m : IPMatch)
  | malformed
deriving DecidableEq, Repr

/-- One entry of the payload's `results` list; `matchEntries` embeds the
Python key `matches` (a Lean keyword). -/
structure IPResult where
  matchEntries : List IPMatchEntry
deriving DecidableEq, Repr

/-- The decoded InterPro JSON payload. -/
structure IPData where
  results : List IPResult
deriving DecidableEq, Repr

/-- Whether an entry is well shaped. -/
def entryOk : IPMatchEntry → Bool
  | .good _ => true
  | .malformed => false

/-- The dict built for one PFAM-library match. -/
def mkPfamMatch (m : IPMatch) : PfamMatch :=
  { id := m.signature.accession
    name := m.signature.name
    description := m.signature.description
    function := (m.signature.abstract).getD "Pfam protein family domain"
    positions := m.locations.map (fun l => ⟨l.start, l.stop⟩)
    evalue := m.evalue.getD "N/A" }

/-- The inner `for match in result.get('matches', [])` loop: append one dict
per PFAM-library match; a malformed entry raises, so the fold stops and
reports the exception (second component `true`). -/
def parseIPMatches : List IPMatchEntry → List PfamMatch → List PfamMatch × Bool
  | [], acc => (acc, false)
  | .malformed :: _, acc => (acc, true)
  | .good m :: rest, acc =>
    if m.signature.library = some "PFAM" then
      parseIPMatches rest (acc ++ [mkPfamMatch m])
    else
      parseIPMatches rest acc

/-- The outer `for result in data.get('results', [])` loop, stopping at the
first raised exception. -/
def parseIPResults : List IPResult → List PfamMatch → List PfamMatch × Bool
  | [], acc => (acc, false)
  | r :: rs, acc =>
    match parseIPMatches r.matchEntries acc with
    | (acc2, true) => (acc2, true)
    | (acc2, false) => parseIPResults rs acc2

/-- `parse_interpro_results` (src/app.py:176-206): the `except` only prints,
and the `return pfam_matches[:5]` runs whether or not an exception was
raised, so the accumulated matches are returned either way, truncated to 5. -/
def parse_interpro_results (data : IPData) : List PfamMatch :=
  (parseIPResults data.results []).1.take 5

/-! ## Pfam job client (`search_pfam_via_interpro`, src/app.py:110-174)

Network interaction is embedded as an environment: the submission response
and, for each poll attempt, the status response and the result-retrieval
response.  `Net.exn` is a raised exception at that call. -/

/-- Outcome of a network call: a response, or a raised exception. -/
inductive Net (α : Type) where
  | ok (resp : α)
  | exn
deriving DecidableEq, Repr

/-- A text HTTP response (`status_code`, `text`). -/
structure HttpResp where
  status : Nat
  text : String
deriving DecidableEq, Repr

/-- The result-endpoint response; `json = none` embeds a body on which
`.json()` raises (a `ValueError`, which is not caught by the inner
`except requests.exceptions.RequestException` and so propagates to the
function-level handler). -/
structure JsonResp where
  status : Nat
  json : Option IPData
deriving DecidableEq, Repr

/-- The external world as seen by `search_pfam_via_interpro`: the submission
response, and per-attempt status and result responses. -/
structure PfamEnv where
  submit : Net HttpResp
  statusAt : Nat → Net HttpResp
  fetchAt : Nat → Net JsonResp

/-- A producer's return value, instrumented with the number of completed
poll-loop iterations and the total units slept (`time.sleep(5)` runs at the
top of every iteration). -/
structure PollOut (α : Type) where
  ms : List α
  polls : Nat
  slept : Nat
deriving DecidableEq, Repr

/-- Account for one more completed iteration around an inner result. -/
def bump {α : Type} (r : PollOut α) : PollOut α :=
  ⟨r.ms, r.polls + 1, r.slept + 5⟩

/-- The `for attempt in range(max_attempts)` poll loop of
`search_pfam_via_interpro`, by structural recursion on the remaining
attempts.  Status-endpoint exceptions hit the inner `except ... continue`;
a 200 status of `FINISHED` fetches the result (exception: `continue`;
non-200: `break`; undecodable JSON: propagate, handler returns `[]`);
`FAILED`/`ERROR` breaks; anything else polls again. -/
def pfamLoop (env : PfamEnv) (attempt : Nat) : Nat → PollOut PfamMatch
  | 0 => ⟨[], 0, 0⟩
  | rem + 1 =>
    match env.statusAt attempt with
    | .exn => bump (pfamLoop env (attempt + 1) rem)
    | .ok resp =>
      if resp.status = 200 then
        if pyStripS resp.text = "FINISHED" then
          match env.fetchAt attempt with
          | .exn => bump (pfamLoop env (attempt + 1) rem)
          | .ok rr =>
            if rr.status = 200 then
              match rr.json with
              | some d => ⟨parse_interpro_results d, 1, 5⟩
              | none => ⟨[], 1, 5⟩
            else ⟨[], 1, 5⟩
        else if pyStripS resp.text = "FAILED" ∨ pyStripS resp.text = "ERROR" then ⟨[], 1, 5⟩
        else bump (pfamLoop env (attempt + 1) rem)
      else bump (pfamLoop env (attempt + 1) rem)

/-- `search_pfam_via_interpro` (src/app.py:110-174): submit, then poll up to
`max_attempts = 36` times; a submission exception or non-200 submission
status yields `[]`. -/
def search_pfam_via_interpro (sequence : String) (env : PfamEnv) : PollOut PfamMatch :=
  match env.submit with
  | .exn => ⟨[], 0, 0⟩
  | .ok resp =>
    if resp.status = 200 then pfamLoop env 0 36
    else ⟨[], 0, 0⟩

/-! ## NCBI CD-Search client (`search_ncbi_cdd` and `parse_cdd_html_results`,
src/app.py:208-366)

The CDSID extraction, the HTML domain scraping and the per-domain position
scraping are all `re` calls on response text and are run on the concrete
embedded engine. -/

/-- CDSID pattern 1, `CDSID\s*=\s*(\w+)` (group 1 is the id). -/
def cdsidP1 : List Elem :=
  [one (.lit 'C'), one (.lit 'D'), one (.lit 'S'), one (.lit 'I'), one (.lit 'D'),
   el .space 0 none false none, one (.lit '='), el .space 0 none false none,
   el .wordc 1 none false (some 1)]

/-- CDSID pattern 2, `cdsid["\x27]?\s*[:=]\s*["\x27]?(\w+)["\x27]?`. -/
def cdsidP2 : List Elem :=
  [one (.lit 'c'), one (.lit 'd'), one (.lit 's'), one (.lit 'i'), one (.lit 'd'),
   el (.inSet "\"\x27") 0 (some 1) false none, el .space 0 none false none,
   one (.inSet ":="), el .space 0 none false none,
   el (.inSet "\"\x27") 0 (some 1) false none,
   el .wordc 1 none false (some 1),
   el (.inSet "\"\x27") 0 (some 1) false none]

/-- CDSID pattern 3, `searchid["\x27]?\s*[:=]\s*["\x27]?(\w+)["\x27]?`. -/
def cdsidP3 : List Elem :=
  [one (.lit 's'), one (.lit 'e'), one (.lit 'a'), one (.lit 'r'), one (.lit 'c'),
   one (.lit 'h'), one (.lit 'i'), one (.lit 'd'),
   el (.inSet "\"\x27") 0 (some 1) false none, el .space 0 none false none,
   one (.inSet ":="), el .space 0 none false none,
   el (.inSet "\"\x27") 0 (some 1) false none,
   el .wordc 1 none false (some 1),
   el (.inSet "\"\x27") 0 (some 1) false none]

/-- The `for pattern in cdsid_patterns` loop (src/app.py:241-246): each
pattern is tried with `re.search(..., re.IGNORECASE)` in order; the first
hit's group 1 is the CDSID. -/
def findCdsid (content : List Char) : Option (List Char) :=
  match research true [cdsidP1] content 0 with
  | some (off, _, cnts) => some (groupStr cdsidP1 cnts content off 1)
  | none =>
    match research true [cdsidP2] content 0 with
    | some (off, _, cnts) => some (groupStr cdsidP2 cnts content off 1)
    | none =>
      match research true [cdsidP3] content 0 with
      | some (off, _, cnts) => some (groupStr cdsidP3 cnts content off 1)
      | none => none

/-- The cd-domain scrape pattern `(cd\d+)\s*[:\-]?\s*([^<>\n]\x7b10,100\x7d)`
(group 1 the domain id, group 2 the description). -/
def cdElems : List Elem :=
  [el (.lit 'c') 1 (some 1) false (some 1), el (.lit 'd') 1 (some 1) false (some 1),
   el .digit 1 none false (some 1),
   el .space 0 none false none, el (.inSet ":-") 0 (some 1) false none,
   el .space 0 none false none,
   el (.notInSet "<>\n") 10 (some 100) false (some 2)]

/-- Branch `pfam\d+` of the pfam scrape pattern
`(pfam\d+|PF\d+)\s*[:\-]?\s*([^<>\n]\x7b10,100\x7d)`. -/
def pfamElemsA : List Elem :=
  [el (.lit 'p') 1 (some 1) false (some 1), el (.lit 'f') 1 (some 1) false (some 1),
   el (.lit 'a') 1 (some 1) false (some 1), el (.lit 'm') 1 (some 1) false (some 1),
   el .digit 1 none false (some 1),
   el .space 0 none false none, el (.inSet ":-") 0 (some 1) false none,
   el .space 0 none false none,
   el (.notInSet "<>\n") 10 (some 100) false (some 2)]

/-- Branch `PF\d+` of the pfam scrape pattern. -/
def pfamElemsB : List Elem :=
  [el (.lit 'P') 1 (some 1) false (some 1), el (.lit 'F') 1 (some 1) false (some 1),
   el .digit 1 none false (some 1),
   el .space 0 none false none, el (.inSet ":-") 0 (some 1) false none,
   el .space 0 none false none,
   el (.notInSet "<>\n") 10 (some 100) false (some 2)]

/-- The per-domain position pattern
`\x7bdomain_id\x7d.*?(\d+)\s*[-\.]\x7b1,3\x7d\s*(\d+)` (an f-string whose
prefix is the literal domain id), searched case-sensitively. -/
def posElems (domainId : List Char) : List Elem :=
  (domainId.map (fun c => el (.lit c) 1 (some 1) false none)) ++
  [el .anyNoNL 0 none true none,
   el .digit 1 none false (some 1),
   el .space 0 none false none,
   el (.inSet "-.") 1 (some 3) false none,
   el .space 0 none false none,
   el .digit 1 none false (some 2)]

/-- `re.search` of the position pattern for one scraped domain id: the two
captured digit groups as Python `int`s. -/
def cddPos (html : List Char) (domainId : List Char) : Option (Nat × Nat) :=
  match research false [posElems domainId] html 0 with
  | some (off, _, cnts) =>
    some (parseNatDigits (groupStr (posElems domainId) cnts html off 1),
          parseNatDigits (groupStr (posElems domainId) cnts html off 2))
  | none => none

/-- `parse_cdd_html_results` (src/app.py:298-366): scrape `cd####` domains
(default span `(1, 50)` and bitscore `45.0` when no position pair is found
for the id), then pfam domains (always span `(1, 50)` and bitscore `40.0`),
and return the first five.  The body is pure, so the `except` is
unreachable. -/
def parse_cdd_html_results (htmlContent : String) : List CddMatch :=
  let cs := htmlContent.data
  let cdMs := (finditer true cdElems cs).map (fun h =>
    let domainId := groupStr cdElems h.2.2 cs h.1 1
    let description := pyStrip (groupStr cdElems h.2.2 cs h.1 2)
    let pos := match cddPos cs domainId with
      | some p => p
      | none => (1, 50)
    { id := String.mk domainId
      name := String.mk (domainId.map Char.toUpper)
      description := String.mk (description.take 100)
      function := "Conserved domain: " ++ String.mk (description.take 80)
      superfamily := "CDD superfamily"
      positions := [⟨pos.1, pos.2⟩]
      bitscore := 45 })
  let pfMs := (finditerAlts true [pfamElemsA, pfamElemsB] cs).map (fun h =>
    let elems := if h.2.1 = 0 then pfamElemsA else pfamElemsB
    let domainId := groupStr elems h.2.2 cs h.1 1
    let description := pyStrip (groupStr elems h.2.2 cs h.1 2)
    { id := String.mk domainId
      name := String.mk (domainId.map Char.toUpper)
      description := String.mk (description.take 100)
      function := "Pfam domain: " ++ String.mk (description.take 80)
      superfamily := "Pfam superfamily"
      positions := [⟨1, 50⟩]
      bitscore := 40 })
  (cdMs ++ pfMs).take 5

/-- Python `needle in hay` on strings: substring containment. -/
def pyContains (needle : List Char) : List Char → Bool
  | [] => needle.isPrefixOf []
  | c :: t => needle.isPrefixOf (c :: t) || pyContains needle t

/-- The readiness test of the CDD poll loop (src/app.py:272-276): the result
page text, lowercased, contains one of the domain keywords. -/
def cddReady (t : String) : Bool :=
  let low := t.data.map Char.toLower
  pyContains "cd0".data low || pyContains "pfam".data low || pyContains "smart".data low ||
    pyContains "cog".data low || pyContains "domain".data low

/-- The external world as seen by `search_ncbi_cdd`: the submission response
and the per-attempt result-page responses. -/
structure CddEnv where
  submit : Net HttpResp
  fetchAt : Nat → Net HttpResp

/-- The CDD poll loop (src/app.py:254-286): each attempt sleeps 5, fetches
the result page (exception: `continue`), and parses it only when the status
is 200 and the readiness keywords appear; otherwise it polls again. -/
def cddLoop (env : CddEnv) (attempt : Nat) : Nat → PollOut CddMatch
  | 0 => ⟨[], 0, 0⟩
  | rem + 1 =>
    match env.fetchAt attempt with
    | .exn => bump (cddLoop env (attempt + 1) rem)
    | .ok resp =>
      if resp.status = 200 then
        if cddReady resp.text then ⟨parse_cdd_html_results resp.text, 1, 5⟩
        else bump (cddLoop env (attempt + 1) rem)
      else bump (cddLoop env (attempt + 1) rem)

/-- `search_ncbi_cdd` (src/app.py:208-296): submit, extract the CDSID from
the submission response text, then poll up to `max_attempts = 36` times; a
submission exception, a non-200 submission status, or a missing CDSID
yields `[]`. -/
def search_ncbi_cdd (sequence : String) (env : CddEnv) : PollOut CddMatch :=
  match env.submit with
  | .exn => ⟨[], 0, 0⟩
  | .ok resp =>
    if resp.status = 200 then
      match findCdsid resp.text.data with
      | some _ => cddLoop env 0 36
      | none => ⟨[], 0, 0⟩
    else ⟨[], 0, 0⟩

/-! ## API endpoint (`search_databases`, src/app.py:404-447) -/

/-- The parsed request body: the `sequence` and `databases` JSON fields. -/
structure ReqBody where
  sequence : String
  databases : List String

/-- A per-source value of the response dict. -/
inductive SourceOut where
  | prositeR (l : List PrositeMatch)
  | pfamR (l : List PfamMatch)
  | ncbiR (l : List CddMatch)
deriving DecidableEq, Repr

/-- The endpoint's response: a JSON error with an HTTP status code, or the
results dict, embedded as its key-value pairs in insertion order. -/
inductive ApiResp where
  | err (msg : String) (code : Nat)
  | ok (results : List (String × SourceOut))
deriving DecidableEq, Repr

/-- `data.get('sequence', '').strip().upper()` (src/app.py:412). -/
def normSeq (s : String) : String :=
  String.mk ((pyStrip s.data).map Char.toUpper)

/-- The boundary validation regex `^[ACDEFGHIKLMNPQRSTVWY]+$` (src/app.py:419). -/
def validSeq (cs : List Char) : Bool :=
  !cs.isEmpty && cs.all (fun c => "ACDEFGHIKLMNPQRSTVWY".data.contains c)

/-- `search_databases` (src/app.py:404-447): normalize and validate the
sequence, then consult each supported source whose name appears in the
requested `databases` list, in the fixed order prosite, pfam, ncbi; dict
insertion order is this check order. -/
def search_databases (body : ReqBody) (envP : PfamEnv) (envC : CddEnv) : ApiResp :=
  let sequence := normSeq body.sequence
  if sequence.data.isEmpty then .err "No sequence provided" 400
  else if !(validSeq sequence.data) then .err "Invalid amino acid sequence" 400
  else if sequence.length < 10 then .err "Sequence too short (minimum 10 amino acids)" 400
  else if sequence.length > 2000 then .err "Sequence too long (maximum 2000 amino acids)" 400
  else
    .ok ((if body.databases.contains "prosite" then
            [("prosite", SourceOut.prositeR (search_prosite_via_uniprot sequence))] else []) ++
         (if body.databases.contains "pfam" then
            [("pfam", SourceOut.pfamR (search_pfam_via_interpro sequence envP).ms)] else []) ++
         (if body.databases.contains "ncbi" then
            [("ncbi", SourceOut.ncbiR (search_ncbi_cdd sequence envC).ms)] else []))

/-! ## Composition classifier (spec §4.2) -/

/-- A heuristic domain prediction of the composition classifier. -/
structure CompMatch where
  id : String
  name : String
  positions : List Span
  bitscore : ℚ
deriving DecidableEq, Repr

/-- Modelled from the spec: the Composition Classifier of §4.2 (`classify`)
is code of this repository that is not under src/ (the spec notes the
repository's variants vacillate between this heuristic source and the live
job client; only the job-client variant is in src/app.py).  Following the
spec's words: residue counts are computed once; the five fixed rules are
evaluated in order (kinase: length > 200 and a `GK` occurrence; zinc finger:
at least 4 `C` and 2 `H`; EF-hand: `D`+`E` counts above 10% of the length;
immunoglobulin fold: length > 100 and `V`+`I`+`L`+`F` above 30%;
helix-turn-helix: `R`+`K` above 15%); each firing rule appends one match
with fixed metadata; the list is truncated to at most 6 entries. -/
def classify (sequence : String) : List CompMatch :=
  let cs := sequence.data
  let n := cs.length
  let count := fun (c : Char) => cs.count c
  let r1 := if n > 200 && pyContains "GK".data cs then
    [⟨"COMP001", "Kinase catalytic domain", [⟨1, 50⟩], 50⟩] else []
  let r2 := if count 'C' ≥ 4 && count 'H' ≥ 2 then
    [⟨"COMP002", "Zinc finger domain", [⟨1, 30⟩], 45⟩] else []
  let r3 := if 10 * (count 'D' + count 'E') > n then
    [⟨"COMP003", "EF-hand calcium-binding domain", [⟨1, 40⟩], 42⟩] else []
  let r4 := if n > 100 && 10 * (count 'V' + count 'I' + count 'L' + count 'F') > 3 * n then
    [⟨"COMP004", "Immunoglobulin fold", [⟨1, 60⟩], 41⟩] else []
  let r5 := if 20 * (count 'R' + count 'K') > 3 * n then
    [⟨"COMP005", "Helix-turn-helix domain", [⟨1, 35⟩], 40⟩] else []
  (r1 ++ r2 ++ r3 ++ r4 ++ r5).take 6

/-! ## Engine lemmas -/

/-- The longest matching run is no longer than the text. -/
theorem maxRun_le (ci : Bool) (cls : CClass) : ∀ cs : List Char, maxRun ci cls cs ≤ cs.length := by
  intro cs
  induction cs with
  | nil => simp [maxRun]
  | cons c t ih =>
    by_cases h : cmatch ci cls c = true <;> simp [maxRun, h] <;> omega

/-- Candidate counts lie between the quantifier's bounds. -/
theorem mem_cands (lazy : Bool) (lo cap k : Nat)
    (h : k ∈ (if lazy then candsAsc lo cap else candsDesc lo cap)) : lo ≤ k ∧ k ≤ cap := by
  cases lazy <;> simp [candsAsc, candsDesc, List.mem_map, List.mem_range] at h <;>
    obtain ⟨i, hi, rfl⟩ := h <;> omega

/-- Soundness of the backtracking matcher: a successful match has one count
per element, consumes at most the whole text, and each element consumes at
least its lower repetition bound. -/
theorem matchStep_sound (ci : Bool) :
    ∀ (fuel : Nat) (es : List Elem) (cs : List Char) (cnts : List Nat),
      matchStep ci fuel es cs = some cnts →
      cnts.length = es.length ∧ cnts.sum ≤ cs.length ∧ ∀ p ∈ es.zip cnts, p.1.lo ≤ p.2 := by
  intro fuel
  induction fuel with
  | zero => intro es cs cnts h; simp [matchStep] at h
  | succ fuel ih =>
    intro es cs cnts h
    cases es with
    | nil =>
      simp [matchStep] at h
      subst h; simp
    | cons e es =>
      simp only [matchStep] at h
      obtain ⟨n, hn, hf⟩ := List.exists_of_findSome?_eq_some h
      cases hrec : matchStep ci fuel es (cs.drop n) with
      | none => rw [hrec] at hf; simp at hf
      | some rest =>
        rw [hrec] at hf
        simp only [Option.map_some', Option.some.injEq] at hf
        obtain ⟨hlen, hsum, hzip⟩ := ih es (cs.drop n) rest hrec
        obtain ⟨hlo, hcap⟩ := mem_cands e.lazy e.lo _ n hn
        have hcapRun : (match e.hi with
            | none => maxRun ci e.cls cs
            | some h => min h (maxRun ci e.cls cs)) ≤ maxRun ci e.cls cs := by
          cases e.hi <;> simp
        have hrun := maxRun_le ci e.cls cs
        have hncs : n ≤ cs.length := le_trans hcap (le_trans hcapRun hrun)
        subst hf
        refine ⟨by simp [hlen], ?_, ?_⟩
        · have hdl : (cs.drop n).length = cs.length - n := List.length_drop n cs
          simp only [List.sum_cons]
          omega
        · intro p hp
          simp only [List.zip_cons_cons, List.mem_cons] at hp
          rcases hp with rfl | hp
          · exact hlo
          · exact hzip p hp

/-- Soundness of `matchElems`. -/
theorem matchElems_sound (ci : Bool) (es : List Elem) (cs : List Char) (cnts : List Nat)
    (h : matchElems ci es cs = some cnts) :
    cnts.length = es.length ∧ cnts.sum ≤ cs.length ∧ ∀ p ∈ es.zip cnts, p.1.lo ≤ p.2 :=
  matchStep_sound ci (es.length + 1) es cs cnts h

/-- A successful alternation match comes from one of the branches. -/
theorem tryAlts_sound (ci : Bool) (alts : List (List Elem)) (cs : List Char) (i : Nat)
    (cnts : List Nat) (h : tryAlts ci alts cs = some (i, cnts)) :
    ∃ p ∈ alts, matchElems ci p cs = some cnts := by
  obtain ⟨pr, hm, hf⟩ := List.exists_of_findSome?_eq_some h
  cases he : matchElems ci pr.2 cs with
  | none => rw [he] at hf; simp at hf
  | some c =>
    rw [he] at hf
    simp only [Option.map_some', Option.some.injEq, Prod.mk.injEq] at hf
    exact ⟨pr.2, List.snd_mem_of_mem_enum hm, by rw [he, hf.2]⟩

/-- A nonempty pattern whose elements all have a positive lower repetition
bound only reports matches of positive length. -/
theorem matchElems_pos (ci : Bool) (es : List Elem) (cs : List Char) (cnts : List Nat)
    (h : matchElems ci es cs = some cnts) (hne : es ≠ [])
    (hlo : ∀ e ∈ es, 1 ≤ e.lo) : 1 ≤ cnts.sum := by
  obtain ⟨hlen, _, hzip⟩ := matchElems_sound ci es cs cnts h
  cases es with
  | nil => exact absurd rfl hne
  | cons e es =>
    cases cnts with
    | nil => simp at hlen
    | cons c rest =>
      have h1 : e.lo ≤ c := by simpa using hzip (e, c) (by simp)
      have h2 : 1 ≤ e.lo := hlo e (by simp)
      simp only [List.sum_cons]
      omega

/-- Every hit of the scanner lies inside the scanned window: its offset is at
least the window start and it ends inside the window. -/
theorem finditerF_window (ci : Bool) (alts : List (List Elem)) :
    ∀ (fuel : Nat) (cs : List Char) (off : Nat) (h : Nat × Nat × List Nat),
      h ∈ finditerF ci alts fuel cs off →
      off ≤ h.1 ∧ h.1 + h.2.2.sum ≤ off + cs.length := by
  intro fuel
  induction fuel with
  | zero => intro cs off h hm; simp [finditerF] at hm
  | succ fuel ih =>
    intro cs off h hm
    simp only [finditerF] at hm
    cases ht : tryAlts ci alts cs with
    | some pr =>
      obtain ⟨i, cnts⟩ := pr
      rw [ht] at hm
      obtain ⟨p, _, hme⟩ := tryAlts_sound ci alts cs i cnts ht
      obtain ⟨_, hsum, _⟩ := matchElems_sound ci p cs cnts hme
      cases cs with
      | nil =>
        simp only [List.mem_singleton] at hm
        subst hm
        simpa using hsum
      | cons c t =>
        simp only [List.mem_cons] at hm
        have hcl : (c :: t).length = t.length + 1 := rfl
        rcases hm with rfl | hm
        · exact ⟨le_refl _, by simp only [hcl] at hsum ⊢; omega⟩
        · have hrec := ih _ _ h hm
          have hdl : (((c :: t).drop (max cnts.sum 1))).length
              = (c :: t).length - max cnts.sum 1 := List.length_drop _ _
          simp only [hcl] at hsum hdl
          omega
    | none =>
      rw [ht] at hm
      cases cs with
      | nil => simp at hm
      | cons c t =>
        have hrec := ih _ _ h hm
        simp only [List.length_cons]
        omega

/-- With a library of nonempty positive-lower-bound patterns, every reported
hit has positive length. -/
theorem finditerF_pos (ci : Bool) (alts : List (List Elem))
    (halts : ∀ p ∈ alts, p ≠ [] ∧ ∀ e ∈ p, 1 ≤ e.lo) :
    ∀ (fuel : Nat) (cs : List Char) (off : Nat) (h : Nat × Nat × List Nat),
      h ∈ finditerF ci alts fuel cs off → 1 ≤ h.2.2.sum := by
  intro fuel
  induction fuel with
  | zero => intro cs off h hm; simp [finditerF] at hm
  | succ fuel ih =>
    intro cs off h hm
    simp only [finditerF] at hm
    cases ht : tryAlts ci alts cs with
    | some pr =>
      obtain ⟨i, cnts⟩ := pr
      rw [ht] at hm
      obtain ⟨p, hp, hme⟩ := tryAlts_sound ci alts cs i cnts ht
      have hpos := matchElems_pos ci p cs cnts hme (halts p hp).1 (halts p hp).2
      cases cs with
      | nil => simp only [List.mem_singleton] at hm; subst hm; exact hpos
      | cons c t =>
        simp only [List.mem_cons] at hm
        rcases hm with rfl | hm
        · exact hpos
        · exact ih _ _ h hm
    | none =>
      rw [ht] at hm
      cases cs with
      | nil => simp at hm
      | cons c t => exact ih _ _ h hm

/-- Hits are reported left to right and each later hit starts after the end
of every earlier one (one pattern's spans never overlap). -/
theorem finditerF_pairwise (ci : Bool) (alts : List (List Elem)) :
    ∀ (fuel : Nat) (cs : List Char) (off : Nat),
      List.Pairwise (fun a b : Nat × Nat × List Nat => a.1 + max a.2.2.sum 1 ≤ b.1)
        (finditerF ci alts fuel cs off) := by
  intro fuel
  induction fuel with
  | zero => intro cs off; simp [finditerF]
  | succ fuel ih =>
    intro cs off
    simp only [finditerF]
    cases ht : tryAlts ci alts cs with
    | some pr =>
      obtain ⟨i, cnts⟩ := pr
      cases cs with
      | nil => simp
      | cons c t =>
        refine List.Pairwise.cons ?_ (ih _ _)
        intro b hb
        have := (finditerF_window ci alts fuel _ _ b hb).1
        simpa using this
    | none =>
      cases cs with
      | nil => simp
      | cons c t => exact ih _ _

/-! ## Poll-loop lemmas -/

/-- When the status endpoint always answers 200 `RUNNING`, the Pfam loop
runs every remaining attempt, sleeping 5 units each, and returns no match. -/
theorem pfamLoop_running (env : PfamEnv)
    (hrun : ∀ n, env.statusAt n = .ok ⟨200, "RUNNING"⟩) :
    ∀ (rem attempt : Nat), pfamLoop env attempt rem = ⟨[], rem, 5 * rem⟩ := by
  intro rem
  induction rem with
  | zero => intro attempt; rfl
  | succ rem ih =>
    intro attempt
    have hstrip : pyStripS (String.mk ['R', 'U', 'N', 'N', 'I', 'N', 'G']) =
        String.mk ['R', 'U', 'N', 'N', 'I', 'N', 'G'] := rfl
    simp only [pfamLoop, hrun attempt]
    norm_num [hstrip, ih, bump, Nat.mul_succ]
    rw [if_neg (by decide), if_neg (by decide)]

/-- When every result fetch answers 200 with a page that is not yet ready,
the CDD loop runs every remaining attempt, sleeping 5 units each, and
returns no match. -/
theorem cddLoop_notReady (env : CddEnv)
    (hfetch : ∀ n, ∃ t, env.fetchAt n = .ok ⟨200, t⟩ ∧ cddReady t = false) :
    ∀ (rem attempt : Nat), cddLoop env attempt rem = ⟨[], rem, 5 * rem⟩ := by
  intro rem
  induction rem with
  | zero => intro attempt; rfl
  | succ rem ih =>
    intro attempt
    obtain ⟨t, ht, hr⟩ := hfetch attempt
    simp only [cddLoop, ht]
    norm_num [hr, ih, bump, Nat.mul_succ]

/-- The Pfam loop never returns more than five matches. -/
theorem pfamLoop_ms_le (env : PfamEnv) :
    ∀ (rem attempt : Nat), (pfamLoop env attempt rem).ms.length ≤ 5 := by
  intro rem
  induction rem with
  | zero => intro attempt; simp [pfamLoop]
  | succ rem ih =>
    intro attempt
    simp only [pfamLoop]
    cases env.statusAt attempt with
    | exn => simpa [bump] using ih (attempt + 1)
    | ok resp =>
      by_cases h200 : resp.status = 200
      · simp only [h200, if_true]
        by_cases hfin : pyStripS resp.text = "FINISHED"
        · simp only [hfin, if_true]
          cases env.fetchAt attempt with
          | exn => simpa [bump] using ih (attempt + 1)
          | ok rr =>
            by_cases hr : rr.status = 200
            · simp only [hr, if_true]
              cases rr.json with
              | some d => simpa [parse_interpro_results] using List.length_take_le 5 _
              | none => simp
            · simp [hr]
        · by_cases hfe : pyStripS resp.text = "FAILED" ∨ pyStripS resp.text = "ERROR"
          · simp [hfin, hfe]
          · simpa [hfin, hfe, bump] using ih (attempt + 1)
      · simpa [h200, bump] using ih (attempt + 1)

/-- The CDD loop never returns more than five matches. -/
theorem cddLoop_ms_le (env : CddEnv) :
    ∀ (rem attempt : Nat), (cddLoop env attempt rem).ms.length ≤ 5 := by
  intro rem
  induction rem with
  | zero => intro attempt; simp [cddLoop]
  | succ rem ih =>
    intro attempt
    simp only [cddLoop]
    cases env.fetchAt attempt with
    | exn => simpa [bump] using ih (attempt + 1)
    | ok resp =>
      by_cases h200 : resp.status = 200
      · simp only [h200, if_true]
        by_cases hready : cddReady resp.text = true
        · simpa [hready, parse_cdd_html_results] using List.length_take_le 5 _
        · simpa [hready, bump] using ih (attempt + 1)
      · simpa [h200, bump] using ih (attempt + 1)

/-! ## InterPro parser lemmas (partial-parse behavior) -/

/-- A fault-free match list parses without raising. -/
theorem parseIPMatches_ok (good : List IPMatchEntry) :
    ∀ acc, good.all entryOk = true → (parseIPMatches good acc).2 = false := by
  induction good with
  | nil => intro acc _; rfl
  | cons e rest ih =>
    intro acc hok
    simp only [List.all_cons, Bool.and_eq_true] at hok
    cases e with
    | malformed => simp [entryOk] at hok
    | good m =>
      by_cases hlib : m.signature.library = some "PFAM" <;>
        simp [parseIPMatches, hlib, ih _ hok.2]

/-- Processing a match list that faults after its fault-free prefix raises,
keeping exactly the prefix's accumulated matches. -/
theorem parseIPMatches_fault (good rest : List IPMatchEntry) :
    ∀ acc, good.all entryOk = true →
      parseIPMatches (good ++ IPMatchEntry.malformed :: rest) acc =
        ((parseIPMatches good acc).1, true) := by
  induction good with
  | nil => intro acc _; rfl
  | cons e g ih =>
    intro acc hok
    simp only [List.all_cons, Bool.and_eq_true] at hok
    cases e with
    | malformed => simp [entryOk] at hok
    | good m =>
      by_cases hlib : m.signature.library = some "PFAM" <;>
        simp [parseIPMatches, hlib, ih _ hok.2]

/-- A fault-free result-list prefix threads its accumulator through. -/
theorem parseIPResults_append (pre : List IPResult) :
    ∀ (rs : List IPResult) (acc : List PfamMatch),
      (pre.all (fun r => r.matchEntries.all entryOk)) = true →
      parseIPResults (pre ++ rs) acc = parseIPResults rs (parseIPResults pre acc).1 := by
  induction pre with
  | nil => intro rs acc _; rfl
  | cons r pre ih =>
    intro rs acc hok
    simp only [List.all_cons, Bool.and_eq_true] at hok
    have hsnd := parseIPMatches_ok r.matchEntries acc hok.1
    simp only [List.cons_append, parseIPResults]
    cases hpm : parseIPMatches r.matchEntries acc with
    | mk a b =>
      cases b with
      | true => rw [hpm] at hsnd; simp at hsnd
      | false => simpa using ih rs a hok.2

/-! ## Shared helpers for the claim theorems -/

/-- A Pfam environment whose every network call raises. -/
def pfamEnvDown : PfamEnv := ⟨.exn, fun _ => .exn, fun _ => .exn⟩

/-- A CDD environment whose every network call raises. -/
def cddEnvDown : CddEnv := ⟨.exn, fun _ => .exn⟩

/-- With a sequence that passes the boundary validation, the endpoint
always answers `ok`, assembling one entry per supported requested source in
the fixed prosite, pfam, ncbi order. -/
theorem search_databases_ok (body : ReqBody) (envP : PfamEnv) (envC : CddEnv)
    (hval : validSeq (normSeq body.sequence).data = true)
    (hlen1 : 10 ≤ (normSeq body.sequence).length)
    (hlen2 : (normSeq body.sequence).length ≤ 2000) :
    search_databases body envP envC =
      .ok ((if body.databases.contains "prosite" then
              [("prosite", SourceOut.prositeR (search_prosite_via_uniprot (normSeq body.sequence)))]
            else []) ++
           (if body.databases.contains "pfam" then
              [("pfam", SourceOut.pfamR (search_pfam_via_interpro (normSeq body.sequence) envP).ms)]
            else []) ++
           (if body.databases.contains "ncbi" then
              [("ncbi", SourceOut.ncbiR (search_ncbi_cdd (normSeq body.sequence) envC).ms)]
            else [])) := by
  have hne : (normSeq body.sequence).data.isEmpty = false := by
    simp only [validSeq, Bool.and_eq_true, Bool.not_eq_true'] at hval
    exact hval.1
  have h10 : ¬((normSeq body.sequence).length < 10) := by omega
  have h2000 : ¬((normSeq body.sequence).length > 2000) := by omega
  unfold search_databases
  simp [hne, hval, h10, h2000]

/-- The keys of the response are the supported names filtered by the
request, in the fixed check order. -/
theorem search_databases_keys (body : ReqBody) (envP : PfamEnv) (envC : CddEnv)
    (hval : validSeq (normSeq body.sequence).data = true)
    (hlen1 : 10 ≤ (normSeq body.sequence).length)
    (hlen2 : (normSeq body.sequence).length ≤ 2000) :
    ∃ l, search_databases body envP envC = .ok l ∧
      l.map Prod.fst =
        (["prosite", "pfam", "ncbi"] : List String).filter (fun k => body.databases.contains k) := by
  rw [search_databases_ok body envP envC hval hlen1 hlen2]
  refine ⟨_, rfl, ?_⟩
  by_cases hp : "prosite" ∈ body.databases <;>
    by_cases hf : "pfam" ∈ body.databases <;>
      by_cases hn : "ncbi" ∈ body.databases <;>
        simp [hp, hf, hn]

/-! ## Claim C2 -/

/-- C2: any exception inside one source's producer is caught there and
yields an empty list for that source's key; the overall call still answers
`ok`, with every requested source's entry computed from that source's own
environment alone, so the other requested sources are unaffected. -/
theorem c2_fault_isolation (body : ReqBody) (envP : PfamEnv) (envC : CddEnv)
    (hval : validSeq (normSeq body.sequence).data = true)
    (hlen1 : 10 ≤ (normSeq body.sequence).length)
    (hlen2 : (normSeq body.sequence).length ≤ 2000) :
    search_databases body envP envC =
      .ok ((if body.databases.contains "prosite" then
              [("prosite", SourceOut.prositeR (search_prosite_via_uniprot (normSeq body.sequence)))]
            else []) ++
           (if body.databases.contains "pfam" then
              [("pfam", SourceOut.pfamR (search_pfam_via_interpro (normSeq body.sequence) envP).ms)]
            else []) ++
           (if body.databases.contains "ncbi" then
              [("ncbi", SourceOut.ncbiR (search_ncbi_cdd (normSeq body.sequence) envC).ms)]
            else [])) ∧
    (envP.submit = .exn → (search_pfam_via_interpro (normSeq body.sequence) envP).ms = []) ∧
    (envC.submit = .exn → (search_ncbi_cdd (normSeq body.sequence) envC).ms = []) := by
  refine ⟨search_databases_ok body envP envC hval hlen1 hlen2, ?_, ?_⟩
  · intro h
    unfold search_pfam_via_interpro
    rw [h]
  · intro h
    unfold search_ncbi_cdd
    rw [h]

/-- C2 witness: with all three sources requested and both network clients
raising on submission, the call answers `ok` with empty pfam and ncbi lists
and the pattern source unaffected. -/
theorem c2_fault_isolation_witness :
    search_databases ⟨"ACDEFGHIKL", ["prosite", "pfam", "ncbi"]⟩ pfamEnvDown cddEnvDown =
      .ok [("prosite", SourceOut.prositeR []), ("pfam", SourceOut.pfamR []),
           ("ncbi", SourceOut.ncbiR [])] ∧
    (search_pfam_via_interpro (normSeq "ACDEFGHIKL") pfamEnvDown).ms = [] ∧
    (search_ncbi_cdd (normSeq "ACDEFGHIKL") cddEnvDown).ms = [] := by
  obtain ⟨h1, h2, h3⟩ := c2_fault_isolation ⟨"ACDEFGHIKL", ["prosite", "pfam", "ncbi"]⟩
    pfamEnvDown cddEnvDown (by decide) (by decide) (by decide)
  refine ⟨?_, h2 rfl, h3 rfl⟩
  rw [h1]
  decide

/-! ## Claim C3 -/

/-- C3: a job client whose status endpoint reports a non-terminal state on
every poll runs its fixed-interval loop for exactly the 36 configured
attempts, sleeping 5 units per attempt, and then returns an empty list: the
Pfam client when every status response is 200 `RUNNING`, and the CDD client
when every result page answers 200 but never contains the readiness
keywords. -/
theorem c3_timeout (seqP seqC : String) (envP : PfamEnv) (envC : CddEnv)
    (jobText subText : String) (cdsid : List Char)
    (hP1 : envP.submit = .ok ⟨200, jobText⟩)
    (hP2 : ∀ n, envP.statusAt n = .ok ⟨200, "RUNNING"⟩)
    (hC1 : envC.submit = .ok ⟨200, subText⟩)
    (hC2 : findCdsid subText.data = some cdsid)
    (hC3 : ∀ n, ∃ t, envC.fetchAt n = .ok ⟨200, t⟩ ∧ cddReady t = false) :
    search_pfam_via_interpro seqP envP = ⟨[], 36, 5 * 36⟩ ∧
    search_ncbi_cdd seqC envC = ⟨[], 36, 5 * 36⟩ := by
  constructor
  · unfold search_pfam_via_interpro
    rw [hP1]
    simpa using pfamLoop_running envP hP2 36 0
  · unfold search_ncbi_cdd
    rw [hC1]
    simpa [hC2] using cddLoop_notReady envC hC3 36 0

/-- The Pfam environment of the timeout witness: submission succeeds and
every status poll answers 200 `RUNNING`. -/
def pfamEnvRunning : PfamEnv :=
  ⟨.ok ⟨200, "iprscan5-job-1"⟩, fun _ => .ok ⟨200, "RUNNING"⟩, fun _ => .exn⟩

/-- The CDD environment of the timeout witness: submission succeeds with an
extractable CDSID and every result page answers 200 without the readiness
keywords. -/
def cddEnvWaiting : CddEnv :=
  ⟨.ok ⟨200, "CDSID = X9"⟩, fun _ => .ok ⟨200, "WAITING"⟩⟩

/-- C3 witness: both clients poll exactly 36 times, 5 units apart, and
return empty. -/
theorem c3_timeout_witness :
    search_pfam_via_interpro "ACDEFGHIKL" pfamEnvRunning = ⟨[], 36, 5 * 36⟩ ∧
    search_ncbi_cdd "ACDEFGHIKL" cddEnvWaiting = ⟨[], 36, 5 * 36⟩ :=
  c3_timeout "ACDEFGHIKL" "ACDEFGHIKL" pfamEnvRunning cddEnvWaiting
    "iprscan5-job-1" "CDSID = X9" "X9".data
    rfl (fun _ => rfl) rfl (by decide) (fun _ => ⟨"WAITING", rfl, by decide⟩)

/-! ## Claim C5 -/

/-- C5: the pattern-motif list is the stable first-five truncation of the
full pattern-then-position aggregation, both domain-family parsers and
producers never return more than 5 matches, and the composition classifier
never returns more than 6. -/
theorem c5_truncation (sequence : String) (envP : PfamEnv) (envC : CddEnv)
    (data : IPData) (html : String) :
    (search_prosite_via_uniprot sequence).length ≤ 5 ∧
    search_prosite_via_uniprot sequence = (search_prosite_all sequence).take 5 ∧
    (parse_interpro_results data).length ≤ 5 ∧
    (search_pfam_via_interpro sequence envP).ms.length ≤ 5 ∧
    (parse_cdd_html_results html).length ≤ 5 ∧
    (search_ncbi_cdd sequence envC).ms.length ≤ 5 ∧
    (classify sequence).length ≤ 6 := by
  refine ⟨?_, rfl, ?_, ?_, ?_, ?_, ?_⟩
  · simpa [search_prosite_via_uniprot] using List.length_take_le 5 (search_prosite_all sequence)
  · simpa [parse_interpro_results] using List.length_take_le 5 (parseIPResults data.results []).1
  · unfold search_pfam_via_interpro
    cases envP.submit with
    | exn => simp
    | ok resp =>
      by_cases h : resp.status = 200
      · simpa [h] using pfamLoop_ms_le envP 36 0
      · simp [h]
  · simpa [parse_cdd_html_results] using List.length_take_le 5 _
  · unfold search_ncbi_cdd
    cases envC.submit with
    | exn => simp
    | ok resp =>
      by_cases h : resp.status = 200
      · cases hc : findCdsid resp.text.data with
        | some i => simpa [h, hc] using cddLoop_ms_le envC 36 0
        | none => simp [h, hc]
      · simp [h]
  · simpa [classify] using List.length_take_le 6 _

/-! ## Claim C1 -/

/-- Every library pattern is nonempty with positive lower repetition bounds,
so each of its matches consumes at least one residue. -/
theorem prositePatterns_pos (pat : ProsPattern) (hpat : pat ∈ prositePatterns) :
    pat.regex ≠ [] ∧ ∀ e ∈ pat.regex, 1 ≤ e.lo := by
  simp only [prositePatterns, List.mem_cons, List.not_mem_nil, or_false] at hpat
  rcases hpat with rfl | rfl | rfl | rfl | rfl
  · exact ⟨by decide, by decide⟩
  · exact ⟨by decide, by decide⟩
  · exact ⟨by decide, by decide⟩
  · exact ⟨by decide, by decide⟩
  · exact ⟨by decide, by decide⟩

/-- C1 (amended): the span-validity invariant holds for the pattern-motif
source: every match reported by `search_prosite_via_uniprot` carries a span
with `1 ≤ start ≤ end ≤ len(sequence)`. -/
theorem c1_prosite_span_valid (sequence : String) (m : PrositeMatch)
    (hm : m ∈ search_prosite_via_uniprot sequence) (p : Span) (hp : p ∈ m.positions) :
    1 ≤ p.start ∧ p.start ≤ p.stop ∧ p.stop ≤ sequence.length := by
  have hm' : m ∈ search_prosite_all sequence := List.mem_of_mem_take hm
  simp only [search_prosite_all, List.mem_flatten, List.mem_map] at hm'
  obtain ⟨inner, ⟨pat, hpat, rfl⟩, hmi⟩ := hm'
  simp only [List.mem_map] at hmi
  obtain ⟨h, hh, rfl⟩ := hmi
  simp only [List.mem_singleton] at hp
  subst hp
  have hw := finditerF_window true [pat.regex] (sequence.data.length + 1) sequence.data 0 h hh
  have hpos : 1 ≤ h.2.2.sum := by
    refine finditerF_pos true [pat.regex] ?_ (sequence.data.length + 1) sequence.data 0 h hh
    intro q hq
    simp only [List.mem_singleton] at hq
    subst hq
    exact prositePatterns_pos pat hpat
  have hlen : sequence.length = sequence.data.length := rfl
  obtain ⟨hw1, hw2⟩ := hw
  refine ⟨?_, ?_, ?_⟩
  · show 1 ≤ h.1 + 1
    omega
  · show h.1 + 1 ≤ h.1 + h.2.2.sum
    omega
  · show h.1 + h.2.2.sum ≤ sequence.length
    rw [hlen]
    simpa using hw2

/-- C1 witness: the span-validity bound instantiated at the single hit of
the pattern source on `AASTVRKAA`. -/
theorem c1_prosite_span_valid_witness :
    1 ≤ (4 : Nat) ∧ (4 : Nat) ≤ 6 ∧ (6 : Nat) ≤ ("AASTVRKAA" : String).length :=
  c1_prosite_span_valid "AASTVRKAA"
    { id := "PS00005", name := "PKC_PHOSPHO_SITE",
      description := "Protein kinase C phosphorylation site",
      pattern := "[ST]-x-[RK]",
      function := "Phosphorylation site for protein kinase C",
      positions := [⟨4, 6⟩] }
    (by decide) ⟨4, 6⟩ (by decide)

/-- The CDD environment of the span-validity counterexample: submission
succeeds with an extractable CDSID and the first result page reports one
pfam domain. -/
def cddEnvSpan : CddEnv :=
  ⟨.ok ⟨200, "CDSID = QM3"⟩, fun _ => .ok ⟨200, "pfam00047: immunoglobulin domain text"⟩⟩

/-- C1 counterexample: a boundary-accepted sequence of length 10 requested
against the ncbi source yields a match whose span ends at 50, violating
`end ≤ len(sequence)` (the CDD parser's spans are fixed defaults that
ignore the sequence). -/
theorem c1_counterexample :
    search_databases ⟨"ACDEFGHIKL", ["ncbi"]⟩ pfamEnvDown cddEnvSpan =
      .ok [("ncbi", SourceOut.ncbiR
        [{ id := "pfam00047", name := "PFAM00047",
           description := "immunoglobulin domain text",
           function := "Pfam domain: immunoglobulin domain text",
           superfamily := "Pfam superfamily",
           positions := [⟨1, 50⟩], bitscore := 40 }])] ∧
    ¬((50 : Nat) ≤ ("ACDEFGHIKL" : String).length) :=
  ⟨by decide, by decide⟩

/-! ## Claim C4 -/

/-- C4: every pattern-motif match comes from a scanner hit with
`start = 1 + offset` and `end = offset + length`, and for each library
pattern the scanner's hits are reported left to right with each next search
starting after the previous match's end, so one pattern's spans never
overlap (stated pairwise over all hit pairs). -/
theorem c4_matcher_semantics (sequence : String) :
    (∀ m ∈ search_prosite_all sequence, ∃ q ∈ prositePatterns,
       ∃ h ∈ finditer true q.regex sequence.data,
         m.id = q.id ∧ m.pattern = q.pattern ∧
         m.positions = [⟨h.1 + 1, h.1 + h.2.2.sum⟩]) ∧
    (∀ q ∈ prositePatterns,
       List.Pairwise (fun a b : Nat × Nat × List Nat => a.1 + max a.2.2.sum 1 ≤ b.1)
         (finditer true q.regex sequence.data)) := by
  constructor
  · intro m hm
    simp only [search_prosite_all, List.mem_flatten, List.mem_map] at hm
    obtain ⟨inner, ⟨q, hq, rfl⟩, hmi⟩ := hm
    simp only [List.mem_map] at hmi
    obtain ⟨h, hh, rfl⟩ := hmi
    exact ⟨q, hq, h, hh, rfl, rfl, rfl⟩
  · intro q _
    exact finditerF_pairwise true [q.regex] _ _ _

/-- C4 witness: on `ASARASARAA` the PKC pattern reports two hits and they
are non-overlapping in scan order. -/
theorem c4_matcher_semantics_witness :
    List.Pairwise (fun a b : Nat × Nat × List Nat => a.1 + max a.2.2.sum 1 ≤ b.1)
      (finditer true ps00005.regex ("ASARASARAA" : String).data) :=
  (c4_matcher_semantics "ASARASARAA").2 ps00005 (by decide)

/-! ## Claim C6 -/

/-- C6 counterexample: scanning the library (whose last entry is the
compiled `[ST]-x-[RK]`) against `AASTVRKAA` reports exactly one hit, the
window `TVR` at 1-based positions 4-6, not positions 3-5 as the claim
states. -/
theorem c6_counterexample :
    search_prosite_via_uniprot "AASTVRKAA" =
      [{ id := "PS00005", name := "PKC_PHOSPHO_SITE",
         description := "Protein kinase C phosphorylation site",
         pattern := "[ST]-x-[RK]",
         function := "Phosphorylation site for protein kinase C",
         positions := [⟨4, 6⟩] }] ∧
    ([(⟨4, 6⟩ : Span)] ≠ [(⟨3, 5⟩ : Span)]) :=
  ⟨by decide, by decide⟩

/-- C6 (amended): the matcher does report a hit on the 3-residue window
satisfying `[ST]`, any, `[RK]` — the substring `TVR`, which occupies
0-based offsets 3-5 and therefore 1-based positions 4-6; the reported match
carries `start = 4`, `end = 6`. -/
theorem c6_amended :
    search_prosite_via_uniprot "AASTVRKAA" =
      [{ id := "PS00005", name := "PKC_PHOSPHO_SITE",
         description := "Protein kinase C phosphorylation site",
         pattern := "[ST]-x-[RK]",
         function := "Phosphorylation site for protein kinase C",
         positions := [⟨4, 6⟩] }] ∧
    (("AASTVRKAA" : String).data.drop 3).take 3 = ("TVR" : String).data :=
  ⟨by decide, by decide⟩

/-! ## Claim C7 -/

/-- C7 counterexample: requesting the sources in the order `ncbi, prosite`
still yields the fixed insertion order `prosite, ncbi`: insertion order is
the code's check order, not the request order. -/
theorem c7_counterexample :
    ∃ l, search_databases ⟨"ACDEFGHIKL", ["ncbi", "prosite"]⟩ pfamEnvDown cddEnvDown = .ok l ∧
      l.map Prod.fst = ["prosite", "ncbi"] ∧
      (["prosite", "ncbi"] : List String) ≠ ["ncbi", "prosite"] :=
  ⟨[("prosite", SourceOut.prositeR []), ("ncbi", SourceOut.ncbiR [])],
    by decide, by decide, by decide⟩

/-- C7 (amended): the insertion order of the per-source entries equals the
fixed canonical order prosite, pfam, ncbi restricted to the requested
names, independent of the order in which the caller listed them. -/
theorem c7_fixed_key_order (body : ReqBody) (envP : PfamEnv) (envC : CddEnv)
    (hval : validSeq (normSeq body.sequence).data = true)
    (hlen1 : 10 ≤ (normSeq body.sequence).length)
    (hlen2 : (normSeq body.sequence).length ≤ 2000) :
    ∃ l, search_databases body envP envC = .ok l ∧
      l.map Prod.fst =
        (["prosite", "pfam", "ncbi"] : List String).filter (fun k => body.databases.contains k) :=
  search_databases_keys body envP envC hval hlen1 hlen2

/-- C7 witness: the amended key-order law at a request listing the sources
in reverse order. -/
theorem c7_fixed_key_order_witness :
    ∃ l, search_databases ⟨"ACDEFGHIKL", ["ncbi", "pfam", "prosite"]⟩ pfamEnvDown cddEnvDown = .ok l ∧
      l.map Prod.fst =
        (["prosite", "pfam", "ncbi"] : List String).filter
          (fun k => (["ncbi", "pfam", "prosite"] : List String).contains k) :=
  c7_fixed_key_order ⟨"ACDEFGHIKL", ["ncbi", "pfam", "prosite"]⟩ pfamEnvDown cddEnvDown
    (by decide) (by decide) (by decide)

/-! ## Claim C9 -/

/-- C9: requested names outside the supported set are ignored, never
errors: for a boundary-valid sequence the call answers `ok`, and the key
set of the returned mapping is exactly the intersection of the requested
names with the supported set prosite, pfam, ncbi. -/
theorem c9_unknown_names_ignored (body : ReqBody) (envP : PfamEnv) (envC : CddEnv)
    (hval : validSeq (normSeq body.sequence).data = true)
    (hlen1 : 10 ≤ (normSeq body.sequence).length)
    (hlen2 : (normSeq body.sequence).length ≤ 2000) :
    ∃ l, search_databases body envP envC = .ok l ∧
      ∀ k : String, (∃ v, (k, v) ∈ l) ↔
        (k ∈ body.databases ∧ k ∈ (["prosite", "pfam", "ncbi"] : List String)) := by
  obtain ⟨l, hl, hmap⟩ := search_databases_keys body envP envC hval hlen1 hlen2
  refine ⟨l, hl, ?_⟩
  intro k
  have hiff : (∃ v, (k, v) ∈ l) ↔ k ∈ l.map Prod.fst := by
    constructor
    · rintro ⟨v, hv⟩
      exact List.mem_map.mpr ⟨(k, v), hv, rfl⟩
    · intro hk
      obtain ⟨⟨a, b⟩, hp, hpk⟩ := List.mem_map.mp hk
      simp only at hpk
      subst hpk
      exact ⟨b, hp⟩
  rw [hiff, hmap]
  simp only [List.mem_filter]
  constructor
  · rintro ⟨h1, h2⟩
    exact ⟨List.elem_iff.mp h2, h1⟩
  · rintro ⟨h1, h2⟩
    exact ⟨h2, List.elem_iff.mpr h1⟩

/-- C9 witness: the key-set law at a request containing an unsupported
name. -/
theorem c9_unknown_names_ignored_witness :
    ∃ l, search_databases ⟨"ACDEFGHIKL", ["prosite", "unknowndb"]⟩ pfamEnvDown cddEnvDown = .ok l ∧
      ∀ k : String, (∃ v, (k, v) ∈ l) ↔
        (k ∈ (["prosite", "unknowndb"] : List String) ∧
          k ∈ (["prosite", "pfam", "ncbi"] : List String)) :=
  c9_unknown_names_ignored ⟨"ACDEFGHIKL", ["prosite", "unknowndb"]⟩ pfamEnvDown cddEnvDown
    (by decide) (by decide) (by decide)

/-! ## Claim C8 -/

/-- C8: if the FINISHED payload faults at some match (after a fault-free
prefix of results and of that result's matches), the parser returns exactly
the matches extracted before the fault, truncated to 5 — the same value as
parsing the fault-free truncated payload — rather than raising or
discarding them. -/
theorem c8_partial_parse (pre : List IPResult) (good rest : List IPMatchEntry)
    (post : List IPResult)
    (hpre : (pre.all (fun r => r.matchEntries.all entryOk)) = true)
    (hgood : good.all entryOk = true) :
    parse_interpro_results ⟨pre ++ ⟨good ++ IPMatchEntry.malformed :: rest⟩ :: post⟩ =
      parse_interpro_results ⟨pre ++ [⟨good⟩]⟩ := by
  unfold parse_interpro_results
  have h1 := parseIPResults_append pre (⟨good ++ IPMatchEntry.malformed :: rest⟩ :: post) [] hpre
  have h2 := parseIPResults_append pre [⟨good⟩] [] hpre
  simp only at h1 h2
  rw [show (⟨pre ++ ⟨good ++ IPMatchEntry.malformed :: rest⟩ :: post⟩ : IPData).results
      = pre ++ ⟨good ++ IPMatchEntry.malformed :: rest⟩ :: post from rfl]
  rw [show (⟨pre ++ [⟨good⟩]⟩ : IPData).results = pre ++ [⟨good⟩] from rfl]
  rw [h1, h2]
  set acc := (parseIPResults pre []).1 with hacc
  have hfault := parseIPMatches_fault good rest acc hgood
  have hok := parseIPMatches_ok good acc hgood
  simp only [parseIPResults]
  rw [hfault]
  cases hgm : parseIPMatches good acc with
  | mk a b =>
    cases b with
    | true => rw [hgm] at hok
    | false => simp

/-- A well-shaped PFAM-library match entry used by the partial-parse
witness. -/
def ipDemoMatch : IPMatch :=
  ⟨⟨some "PFAM", some "PF00001", some "7tm_1", some "GPCR family", some "Seven-helix receptor"⟩,
   [⟨some 2, some 9⟩], some "0.001"⟩

/-- C8 witness: a payload whose single result faults at its second match
parses to the same value as the payload truncated at the fault. -/
theorem c8_partial_parse_witness :
    parse_interpro_results
        ⟨[⟨[IPMatchEntry.good ipDemoMatch, IPMatchEntry.malformed,
            IPMatchEntry.good ipDemoMatch]⟩]⟩ =
      parse_interpro_results ⟨[⟨[IPMatchEntry.good ipDemoMatch]⟩]⟩ :=
  c8_partial_parse [] [IPMatchEntry.good ipDemoMatch] [IPMatchEntry.good ipDemoMatch] []
    (by decide) (by decide)

/-! ## Claim C10 -/

/-- C10: every pfam-branch match of the CDD HTML parser carries the fixed
span `{start: 1, end: 50}` and bitscore `40.0`, and every cd-branch match
for which the position search scrapes no pair carries the default span
`{start: 1, end: 50}` and bitscore `45.0`; the parser never sees the query
sequence, so these values are independent of it and of its length. -/
theorem c10_fixed_spans (html : String) (m : CddMatch)
    (hm : m ∈ parse_cdd_html_results html) :
    (m.superfamily = "Pfam superfamily" → m.positions = [⟨1, 50⟩] ∧ m.bitscore = 40) ∧
    (m.superfamily = "CDD superfamily" → m.bitscore = 45 ∧
      (cddPos html.data m.id.data = none → m.positions = [⟨1, 50⟩])) := by
  simp only [parse_cdd_html_results] at hm
  have hm' := List.mem_of_mem_take hm
  rw [List.mem_append] at hm'
  rcases hm' with hcd | hpf
  · simp only [List.mem_map] at hcd
    obtain ⟨h, hh, rfl⟩ := hcd
    refine ⟨fun hsup => by simp at hsup, fun _ => ⟨rfl, fun hnone => ?_⟩⟩
    have hnone' : cddPos html.data
        (groupStr cdElems h.2.2 html.data h.1 1) = none := hnone
    simp [hnone']
  · simp only [List.mem_map] at hpf
    obtain ⟨h, hh, rfl⟩ := hpf
    exact ⟨fun _ => ⟨rfl, rfl⟩, fun hsup => by simp at hsup⟩

/-- C10 witness: the fixed-value law applied to a scraped cd domain with no
position pair in the page and to a scraped pfam domain. -/
theorem c10_fixed_spans_witness :
    (({ id := "cd00123", name := "CD00123",
        description := "abcdefghijkl", function := "Conserved domain: abcdefghijkl",
        superfamily := "CDD superfamily", positions := [⟨1, 50⟩], bitscore := 45 } : CddMatch).superfamily
        = "CDD superfamily" →
      ({ id := "cd00123", name := "CD00123",
         description := "abcdefghijkl", function := "Conserved domain: abcdefghijkl",
         superfamily := "CDD superfamily", positions := [⟨1, 50⟩], bitscore := 45 } : CddMatch).bitscore = 45 ∧
      (cddPos ("cd00123 : abcdefghijkl" : String).data ("cd00123" : String).data = none →
        ({ id := "cd00123", name := "CD00123",
           description := "abcdefghijkl", function := "Conserved domain: abcdefghijkl",
           superfamily := "CDD superfamily", positions := [⟨1, 50⟩], bitscore := 45 } : CddMatch).positions
          = [⟨1, 50⟩])) ∧
    (({ id := "pfam00047", name := "PFAM00047",
        description := "immunoglobulin domain text",
        function := "Pfam domain: immunoglobulin domain text",
        superfamily := "Pfam superfamily", positions := [⟨1, 50⟩], bitscore := 40 } : CddMatch).superfamily
        = "Pfam superfamily" →
      ({ id := "pfam00047", name := "PFAM00047",
         description := "immunoglobulin domain text",
         function := "Pfam domain: immunoglobulin domain text",
         superfamily := "Pfam superfamily", positions := [⟨1, 50⟩], bitscore := 40 } : CddMatch).positions
        = [⟨1, 50⟩] ∧
      ({ id := "pfam00047", name := "PFAM00047",
         description := "immunoglobulin domain text",
         function := "Pfam domain: immunoglobulin domain text",
         superfamily := "Pfam superfamily", positions := [⟨1, 50⟩], bitscore := 40 } : CddMatch).bitscore = 40) :=
  ⟨(c10_fixed_spans "cd00123 : abcdefghijkl" _ (by decide)).2,
   (c10_fixed_spans "pfam00047: immunoglobulin domain text" _ (by decide)).1⟩
